import Mathlib

/-!
Verification of the frame-indexed animation / timeline-composition engine of
the remotion-workspace-setup repository.

The repository's scene components (WorkspaceChallenge.tsx, Welcome.tsx,
HelloWorld.tsx and the unnamed parts) call the engine operations
(interpolate, spring, TransitionSeries timing, text reveal, cursor blink,
audio gain).  Operations whose bodies live in the source tree (text reveal,
cursor blink, the scene-duration arithmetic, the audio-volume envelope call)
are embedded directly from that source; operations realised by the Remotion
library (keyframe interpolation, spring motion, timeline build and query,
transition compositing) are modelled from the specification, as noted on
each definition.
-/

namespace Engine

/-! ## Keyframe interpolation (KeyframeInterpolator) -/

/-- Extrapolation policy of the keyframe interpolator: clamp to the boundary
value, or extend the nearest segment's slope. -/
inductive Extrap where
  | clamp
  | extend
deriving DecidableEq

/-- Configuration-time error of the interpolator. -/
inductive InterpError where
  | configurationError
deriving DecidableEq

instance {α β : Type} [DecidableEq α] [DecidableEq β] :
    DecidableEq (Except α β) := fun a b =>
  match a, b with
  | .ok x, .ok y =>
      if h : x = y then .isTrue (by rw [h])
      else .isFalse (fun hh => h (Except.ok.inj hh))
  | .error x, .error y =>
      if h : x = y then .isTrue (by rw [h])
      else .isFalse (fun hh => h (Except.error.inj hh))
  | .ok _, .error _ => .isFalse (fun hh => Except.noConfusion hh)
  | .error _, .ok _ => .isFalse (fun hh => Except.noConfusion hh)

/-- Linear blend on the segment from (x0, y0) to (x1, y1), evaluated at f. -/
def lerpSeg (x0 y0 x1 y1 f : ℚ) : ℚ :=
  y0 + (f - x0) / (x1 - x0) * (y1 - y0)

/-- Walk the ordered control points and evaluate the segment containing f;
past the last point apply the right extrapolation policy. -/
def interpAux (f : ℚ) (pr : Extrap) : List (ℚ × ℚ) → ℚ
  | (x0, y0) :: (x1, y1) :: rest =>
      if f ≤ x1 then lerpSeg x0 y0 x1 y1 f
      else
        match rest with
        | [] =>
            match pr with
            | .clamp => y1
            | .extend => lerpSeg x0 y0 x1 y1 f
        | _ :: _ => interpAux f pr ((x1, y1) :: rest)
  | _ => 0

/-- Core piecewise-linear evaluation over paired control points (assumed
strictly increasing in the first component). -/
def interpolateCore (f : ℚ) (pts : List (ℚ × ℚ)) (pl pr : Extrap) : ℚ :=
  match pts with
  | [] => 0
  | (x0, y0) :: _ =>
      if f < x0 ∧ pl = .clamp then y0 else interpAux f pr pts

/-- Whether a list of frame thresholds is strictly increasing. -/
def strictlyIncr : List ℚ → Bool
  | [] => true
  | [_] => true
  | x :: y :: rest => decide (x < y) && strictlyIncr (y :: rest)

/-- Modelled from the spec: `interpolate(frame, inputs, outputs, policyLeft,
policyRight)` of the KeyframeInterpolator (the Remotion `interpolate`
function used throughout the source, which is not itself under src/).
Preconditions: strictly increasing inputs, matching lengths of at least two;
on violation it fails with a ConfigurationError.  The optional easing
function is omitted: no call site relevant to a claim supplies one. -/
def interpolate (f : ℚ) (inputs outputs : List ℚ) (pl pr : Extrap) :
    Except InterpError ℚ :=
  if inputs.length = outputs.length ∧ 2 ≤ inputs.length ∧
      strictlyIncr inputs = true then
    .ok (interpolateCore f (inputs.zip outputs) pl pr)
  else
    .error .configurationError

/-! ## Spring motion (SpringEvaluator) -/

/-- Spring configuration: mass, stiffness, damping, initial velocity. -/
structure SpringConfig where
  mass : ℝ
  stiffness : ℝ
  damping : ℝ
  initialVelocity : ℝ

/-- Modelled from the spec: `springValue(elapsedFrames, fps, config)` of the
SpringEvaluator (the Remotion `spring` function, not under src/): the unit
step response of a damped harmonic oscillator starting at displacement 0
with the configured initial velocity and settling at 1, evaluated at
continuous time elapsedFrames / fps, with the closed form selected by the
damping ratio; negative elapsedFrames returns 0 (motion has not started). -/
noncomputable def springValue (elapsedFrames : ℤ) (fps : ℚ) (cfg : SpringConfig) : ℝ :=
  if elapsedFrames < 0 then 0
  else
    let t : ℝ := (elapsedFrames : ℝ) / (fps : ℝ)
    let om0 : ℝ := Real.sqrt (cfg.stiffness / cfg.mass)
    let zeta : ℝ := cfg.damping / (2 * Real.sqrt (cfg.mass * cfg.stiffness))
    if zeta < 1 then
      let omd : ℝ := om0 * Real.sqrt (1 - zeta ^ 2)
      1 + Real.exp (-(zeta * om0 * t)) *
        (-Real.cos (omd * t) +
          ((cfg.initialVelocity - zeta * om0) / omd) * Real.sin (omd * t))
    else if zeta = 1 then
      1 + (-1 + (cfg.initialVelocity - om0) * t) * Real.exp (-(om0 * t))
    else
      let r1 : ℝ := -(zeta * om0) + om0 * Real.sqrt (zeta ^ 2 - 1)
      let r2 : ℝ := -(zeta * om0) - om0 * Real.sqrt (zeta ^ 2 - 1)
      let a : ℝ := (cfg.initialVelocity + r2) / (r1 - r2)
      1 + a * Real.exp (r1 * t) + (-1 - a) * Real.exp (r2 * t)

/-! ## Timeline composition (TimelineComposer) -/

/-- A resolved scene: absolute start offset and effective length. -/
structure ResolvedScene where
  start : ℤ
  len : ℤ
deriving DecidableEq

/-- A resolved transition window: absolute window start and duration. -/
structure ResolvedTransition where
  windowStart : ℤ
  duration : ℤ
deriving DecidableEq

/-- A resolved timeline: scenes with absolute spans, transition windows,
and the required total length. -/
structure ResolvedTimeline where
  scenes : List ResolvedScene
  transitions : List ResolvedTransition
  total : ℤ
deriving DecidableEq

/-- Build-time error kinds. -/
inductive BuildError where
  | duration
  | config
deriving DecidableEq

/-- Add d to the last element of a list (the last scene absorbs the delta). -/
def bumpLast (xs : List ℤ) (d : ℤ) : List ℤ :=
  match xs with
  | [] => []
  | [x] => [x + d]
  | x :: rest => x :: bumpLast rest d

/-- Sum of the transition durations touching scene i of n scenes:
the transition on its left (if any) plus the transition on its right
(if any). -/
def touchingSum (trans : List ℤ) (n i : ℕ) : ℤ :=
  (if 0 < i then trans.getD (i - 1) 0 else 0) +
    (if i + 1 < n then trans.getD i 0 else 0)

/-- Duration validation of the build step: every effective scene length is
at least the sum of the transition durations touching it, and the adjusted
last scene length is positive. -/
def DurationsValid (scenes trans : List ℤ) (total : ℤ) : Prop :=
  (∀ i, i < scenes.length →
    touchingSum trans scenes.length i ≤
      (bumpLast scenes (total - (scenes.sum - trans.sum))).getD i 0) ∧
  0 < (bumpLast scenes (total - (scenes.sum - trans.sum))).getD
      (scenes.length - 1) 0

instance (scenes trans : List ℤ) (total : ℤ) :
    Decidable (DurationsValid scenes trans total) := by
  unfold DurationsValid
  infer_instance

/-- A duration violation as the spec describes it: some effective scene
length smaller than the transition durations touching it, or an adjusted
last-scene length that is zero or negative. -/
def DurationViolation (scenes trans : List ℤ) (total : ℤ) : Prop :=
  (∃ i, i < scenes.length ∧
    (bumpLast scenes (total - (scenes.sum - trans.sum))).getD i 0 <
      touchingSum trans scenes.length i) ∨
  (bumpLast scenes (total - (scenes.sum - trans.sum))).getD
      (scenes.length - 1) 0 ≤ 0

instance (scenes trans : List ℤ) (total : ℤ) :
    Decidable (DurationViolation scenes trans total) := by
  unfold DurationViolation
  infer_instance

/-- Walk the effective scene lengths left to right accumulating absolute
start offsets; each following scene starts a transition-duration early, and
that overlap is the transition window. -/
def layout (start : ℤ) :
    List ℤ → List ℤ → List ResolvedScene × List ResolvedTransition
  | [], _ => ([], [])
  | [l], _ => ([⟨start, l⟩], [])
  | l :: l' :: ls, [] =>
      let r := layout (start + l) (l' :: ls) []
      (⟨start, l⟩ :: r.1, r.2)
  | l :: l' :: ls, t :: ts =>
      let r := layout (start + l - t) (l' :: ls) ts
      (⟨start, l⟩ :: r.1, ⟨start + l - t, t⟩ :: r.2)

/-- Modelled from the spec: `build(scenes, transitions, totalFrames)` of the
TimelineComposer (realised in the source by the Remotion TransitionSeries
together with the scene-duration arithmetic of WorkspaceChallenge.tsx and
Welcome.tsx).  naiveTotal = sum requested - sum transition durations;
delta = totalFrames - naiveTotal; the last scene's effective length becomes
its requested length plus delta; durations are validated and on violation
the whole build fails with a DurationError and no timeline is produced. -/
def build (scenes trans : List ℤ) (total : ℤ) :
    Except BuildError ResolvedTimeline :=
  if scenes.length = trans.length + 1 then
    if DurationsValid scenes trans total then
      let eff := bumpLast scenes (total - (scenes.sum - trans.sum))
      .ok ⟨(layout 0 eff trans).1, (layout 0 eff trans).2, total⟩
    else
      .error .duration
  else
    .error .config

/-- What is active at a global frame. -/
inductive ActiveState where
  | single (sceneIdx : ℕ) (localFrame : ℤ)
  | transition (idx : ℕ) (outLocal inLocal : ℤ) (progress : ℚ)
  | offTimeline
deriving DecidableEq

/-- First element satisfying p, together with its index. -/
def findWithIdx {α : Type} (p : α → Bool) : List α → Option (ℕ × α)
  | [] => none
  | x :: xs =>
      if p x then some (0, x)
      else (findWithIdx p xs).map (fun r => (r.1 + 1, r.2))

/-- A scene span contains a global frame (half-open span). -/
def sceneContains (s : ResolvedScene) (g : ℤ) : Prop :=
  s.start ≤ g ∧ g < s.start + s.len

instance (s : ResolvedScene) (g : ℤ) : Decidable (sceneContains s g) := by
  unfold sceneContains
  infer_instance

/-- A transition window contains a global frame (half-open window). -/
def windowContains (t : ResolvedTransition) (g : ℤ) : Prop :=
  t.windowStart ≤ g ∧ g < t.windowStart + t.duration

instance (t : ResolvedTransition) (g : ℤ) : Decidable (windowContains t g) := by
  unfold windowContains
  infer_instance

/-- Clamp a rational to [0, 1]. -/
def clamp01 (x : ℚ) : ℚ := max 0 (min x 1)

/-- Modelled from the spec: `queryFrame(resolved, globalFrame)` of the
TimelineComposer.  Inside a transition window both neighboring scenes are
active with their own local frames and a clamped progress; otherwise the
scene whose span contains the frame is active with
localFrame = globalFrame - sceneStart. -/
def queryFrame (tl : ResolvedTimeline) (g : ℤ) : ActiveState :=
  match findWithIdx (fun t => decide (windowContains t g)) tl.transitions with
  | some (i, t) =>
      let sOut := tl.scenes.getD i ⟨0, 0⟩
      let sIn := tl.scenes.getD (i + 1) ⟨0, 0⟩
      .transition i (g - sOut.start) (g - sIn.start)
        (clamp01 (((g : ℚ) - (t.windowStart : ℚ)) / (t.duration : ℚ)))
  | none =>
      match findWithIdx (fun s => decide (sceneContains s g)) tl.scenes with
      | some (i, s) => .single i (g - s.start)
      | none => .offTimeline

/-! ## Transition compositing (TransitionCompositor) -/

/-- Direction of a slide transition. -/
inductive SlideDirection where
  | fromLeft
  | fromRight
  | fromTop
  | fromBottom
deriving DecidableEq

/-- Presentation kind of a transition; a slide may be a push variant. -/
inductive TransitionKind where
  | fade
  | slide (dir : SlideDirection) (push : Bool)
deriving DecidableEq

/-- Blend parameters for the two scenes sharing a transition window. -/
structure CompositeOut where
  outgoingAlpha : ℚ
  incomingAlpha : ℚ
  outgoingOffset : ℚ
  incomingOffset : ℚ
deriving DecidableEq

/-- Offscreen sign of a slide direction along its axis. -/
def slideSign : SlideDirection → ℚ
  | .fromLeft => -1
  | .fromRight => 1
  | .fromTop => -1
  | .fromBottom => 1

/-- Modelled from the spec: `composite(kind, progress)` of the
TransitionCompositor (the Remotion fade/slide presentations, not under
src/): fade cross-blends the alphas with zero offsets; slide moves the
incoming scene from one full frame dimension offscreen to zero, the
outgoing scene resting unless the push variant is requested. -/
def composite (k : TransitionKind) (progress dimension : ℚ) : CompositeOut :=
  match k with
  | .fade => ⟨1 - progress, progress, 0, 0⟩
  | .slide d push =>
      ⟨1, 1,
        if push then -(slideSign d) * dimension * progress else 0,
        slideSign d * dimension * (1 - progress)⟩

/-! ## Progressive text reveal (from the source) -/

/-- From TypewriterScene (src/unnamed/part_001 lines 575-578 and
src/workspace/src/Welcome.tsx lines 125-129):
adjusted = max(0, elapsedFrames); charIndex = min(floor(adjusted /
framesPerChar), text.length); return the first charIndex characters. -/
def reveal (text : List Char) (elapsedFrames : ℤ) (framesPerChar : ℕ) :
    List Char :=
  text.take (min (elapsedFrames.toNat / framesPerChar) text.length)

/-- From TypewriterScene (src/unnamed/part_001 lines 575-578): the displayed
string at a frame, with the typewriter starting at frame `start`:
reveal of the elapsed frames since `start`. -/
def typewriterDisplay (text : List Char) (start fpc : ℕ) (frame : ℕ) :
    List Char :=
  reveal text ((frame : ℤ) - (start : ℤ)) fpc

/-- From TypewriterScene (src/unnamed/part_001 line 580 and
src/workspace/src/Welcome.tsx lines 131-135): the cursor opacity at a point
of the 20-frame blink cycle, `interpolate(n, [0, 10, 20], [1, 0, 1])` with
the default extend policies. -/
def cursorAux (n : ℕ) : ℚ :=
  (interpolate (n : ℚ) [0, 10, 20] [1, 0, 1] .extend .extend).toOption.getD 0

/-- From TypewriterScene: `cursorOpacity = interpolate(frame % 20,
[0, 10, 20], [1, 0, 1])`. -/
def cursorOpacity (frame : ℕ) : ℚ :=
  cursorAux (frame % 20)

/-! ## Audio gain envelope (AudioEnvelope) -/

/-- Modelled from the spec (§4.6), generalising the volume call of
WorkspaceChallenge.tsx lines 640-649: piecewise-linear gain through
(0, 0), (fadeInFrames, targetGain), (totalFrames - fadeOutFrames,
targetGain), (totalFrames, 0), with both extrapolation policies clamp. -/
def gainAt (frame total fadeIn fadeOut target : ℚ) : Except InterpError ℚ :=
  interpolate frame [0, fadeIn, total - fadeOut, total] [0, target, target, 0]
    .clamp .clamp

/-- From WorkspaceChallenge.tsx lines 642-648: the audio volume callback,
`interpolate(f, [0, 30, durationInFrames - 45, durationInFrames],
[0, 0.35, 0.35, 0], clamp, clamp)`. -/
def workspaceVolume (f durationInFrames : ℚ) : Except InterpError ℚ :=
  interpolate f [0, 30, durationInFrames - 45, durationInFrames]
    [0, 35 / 100, 35 / 100, 0] .clamp .clamp

/-- From WorkspaceChallenge.tsx lines 628-636: the requested lengths of the
first five scenes at fps 30 (4, 5, 5, 6, 5 seconds). -/
def workspaceRequested : List ℤ := [120, 150, 150, 180, 150]

/-- From WorkspaceChallenge.tsx lines 634-636: usedFrames = scene1 + ... +
scene5 - 4 * transitionDuration; scene6 = durationInFrames - usedFrames +
transitionDuration. -/
def workspaceScene6 (durationInFrames transitionDuration : ℤ) : ℤ :=
  durationInFrames -
    (workspaceRequested.sum - 4 * transitionDuration) + transitionDuration

/-! ## The engine operations as one call type (purity model) -/

/-- One call to an engine operation, with all of its explicit inputs. -/
inductive EngineCall where
  | interpCall (f : ℚ) (inputs outputs : List ℚ) (pl pr : Extrap)
  | springCall (elapsedFrames : ℤ) (fps : ℚ) (cfg : SpringConfig)
  | queryCall (tl : ResolvedTimeline) (g : ℤ)
  | compositeCall (k : TransitionKind) (progress dimension : ℚ)
  | revealCall (text : List Char) (elapsedFrames : ℤ) (framesPerChar : ℕ)
  | cursorCall (frame : ℕ)
  | gainCall (f total fadeIn fadeOut target : ℚ)

/-- Result of one engine call. -/
inductive EngineResult where
  | rat (x : ℚ)
  | real (x : ℝ)
  | ratE (x : Except InterpError ℚ)
  | active (a : ActiveState)
  | chars (s : List Char)
  | comp (c : CompositeOut)

/-- Evaluate one engine call: each operation is applied to the call's
explicit inputs and nothing else. -/
noncomputable def evalCall : EngineCall → EngineResult
  | .interpCall f ins outs pl pr => .ratE (interpolate f ins outs pl pr)
  | .springCall e fps cfg => .real (springValue e fps cfg)
  | .queryCall tl g => .active (queryFrame tl g)
  | .compositeCall k p dim => .comp (composite k p dim)
  | .revealCall t e fpc => .chars (reveal t e fpc)
  | .cursorCall f => .rat (cursorOpacity f)
  | .gainCall f total fi fo tg => .ratE (gainAt f total fi fo tg)

/-- Evaluate a whole history of engine calls in order. -/
noncomputable def runCalls (cs : List EngineCall) : List EngineResult :=
  cs.map evalCall

/-! ## Helper lemmas -/

theorem getElem?_append_cons {α : Type} (xs : List α) (y : α) (ys : List α) :
    (xs ++ y :: ys)[xs.length]? = some y := by
  induction xs with
  | nil => simp
  | cons a as ih => simpa using ih

theorem toNat_ediv_eq_toNat_div (e : ℤ) (fpc : ℕ) (h : 0 < fpc) :
    (e / (fpc : ℤ)).toNat = e.toNat / fpc := by
  rcases le_or_lt 0 e with he | he
  · obtain ⟨m, rfl⟩ := Int.eq_ofNat_of_zero_le he
    norm_cast
  · rw [Int.toNat_of_nonpos (le_of_lt he),
      Int.toNat_of_nonpos (le_of_lt (Int.ediv_neg' he (by exact_mod_cast h)))]
    simp

/-! ## C3: purity of the engine operations -/

/-- C3: every engine operation (interpolate, springValue, queryFrame,
composite, reveal, cursorVisible/cursorOpacity, gainAt) is a pure function
of its explicit inputs: the result of a call is some (evalCall c),
independent of the calls evaluated before or after it, so any two
evaluations of identical arguments — at different positions, in different
orders, with different calls in between — give identical results. -/
theorem engine_calls_pure (pre1 post1 pre2 post2 : List EngineCall)
    (c : EngineCall) :
    (runCalls (pre1 ++ c :: post1))[pre1.length]? = some (evalCall c) ∧
    (runCalls (pre1 ++ c :: post1))[pre1.length]? =
      (runCalls (pre2 ++ c :: post2))[pre2.length]? := by
  have key : ∀ pre post : List EngineCall,
      (runCalls (pre ++ c :: post))[pre.length]? = some (evalCall c) := by
    intro pre post
    rw [runCalls, List.map_append, List.map_cons,
      show pre.length = (pre.map evalCall).length from (List.length_map _ _).symm]
    exact getElem?_append_cons _ _ _
  exact ⟨key pre1 post1, by rw [key pre1 post1, key pre2 post2]⟩

/-! ## C5: progressive text reveal -/

/-- C5: for every text, elapsedFrames and framesPerChar > 0, reveal returns
the prefix of the text of length clamp(floor(elapsedFrames /
framesPerChar), 0, length text) (integer division by a positive divisor is
the floor; toNat clamps below at 0, min clamps above at the length), and
for negative elapsedFrames it returns the empty string. -/
theorem reveal_clamped_count (text : List Char) (e : ℤ) (fpc : ℕ)
    (h : 0 < fpc) :
    reveal text e fpc =
      text.take ((min (e / (fpc : ℤ)) (text.length : ℤ)).toNat) ∧
    (e < 0 → reveal text e fpc = []) := by
  constructor
  · rw [reveal]
    congr 1
    rw [Monotone.map_min (f := Int.toNat) (fun a b hab => Int.toNat_le_toNat hab),
      Int.toNat_natCast, toNat_ediv_eq_toNat_div e fpc h]
  · intro he
    rw [reveal, Int.toNat_of_nonpos (le_of_lt he)]
    simp

/-- Witness for C5 at the spec's example: reveal of "HELLO" after 5 frames
at 2 frames per character is "HE", and after -3 frames it is empty. -/
theorem reveal_clamped_count_witness :
    0 < 2 ∧
    reveal ['H', 'E', 'L', 'L', 'O'] 5 2 = ['H', 'E'] ∧
    reveal ['H', 'E', 'L', 'L', 'O'] (-3) 2 = [] ∧
    reveal ['H', 'E', 'L', 'L', 'O'] 5 2 =
      (['H', 'E', 'L', 'L', 'O'] : List Char).take
        ((min ((5 : ℤ) / 2) 5).toNat) :=
  ⟨by decide, by decide, by decide,
    (reveal_clamped_count ['H', 'E', 'L', 'L', 'O'] 5 2 (by decide)).1⟩

/-! ## C8: spring motion before the start -/

/-- C8: for every fps > 0 and spring configuration with positive mass and
stiffness and non-negative damping, springValue returns 0 whenever
elapsedFrames < 0 (the motion has not started). -/
theorem springValue_before_start (e : ℤ) (fps : ℚ) (cfg : SpringConfig)
    (he : e < 0) (_hfps : 0 < fps) (_hm : 0 < cfg.mass)
    (_hs : 0 < cfg.stiffness) (_hd : 0 ≤ cfg.damping) :
    springValue e fps cfg = 0 := by
  rw [springValue, if_pos he]

/-- Witness for C8 at the source's configuration (damping 200 with the
Remotion defaults mass 1, stiffness 100) at fps 30, one frame early. -/
theorem springValue_before_start_witness :
    (-1 : ℤ) < 0 ∧ springValue (-1) 30 ⟨1, 100, 200, 0⟩ = 0 :=
  ⟨by decide,
    springValue_before_start (-1) 30 ⟨1, 100, 200, 0⟩ (by decide)
      (by norm_num) (by norm_num) (by norm_num) (by norm_num)⟩

/-! ## C10: typewriter display -/

/-- C10: for every frame the typewriter scene's displayed string is a
prefix of the configured text (a take of it); the displayed length is
monotonically non-decreasing in the frame; and from frame
typewriterStart + framesPerChar * length(text) on, the full text is shown. -/
theorem typewriter_prefix_monotone_complete (text : List Char)
    (start fpc : ℕ) (h : 0 < fpc) :
    (∀ frame : ℕ, ∃ n, typewriterDisplay text start fpc frame = text.take n) ∧
    (∀ f1 f2 : ℕ, f1 ≤ f2 →
      (typewriterDisplay text start fpc f1).length ≤
        (typewriterDisplay text start fpc f2).length) ∧
    (∀ frame : ℕ, start + fpc * text.length ≤ frame →
      typewriterDisplay text start fpc frame = text) := by
  refine ⟨fun frame => ⟨_, rfl⟩, ?_, ?_⟩
  · intro f1 f2 hle
    rw [typewriterDisplay, typewriterDisplay, reveal, reveal,
      List.length_take, List.length_take]
    have hk : ((f1 : ℤ) - (start : ℤ)).toNat / fpc ≤
        ((f2 : ℤ) - (start : ℤ)).toNat / fpc :=
      Nat.div_le_div_right (Int.toNat_le_toNat (by omega))
    omega
  · intro frame hge
    rw [typewriterDisplay, reveal]
    have hsub : ((frame : ℤ) - (start : ℤ)).toNat = frame - start := by omega
    rw [hsub]
    have hmul : text.length * fpc ≤ frame - start := by
      rw [Nat.mul_comm]
      exact Nat.le_sub_of_add_le (by omega)
    rw [min_eq_right ((Nat.le_div_iff_mul_le h).2 hmul), List.take_length]

/-- Witness for C10: with a 2-character text starting at frame 75 at 2
frames per character, frame 100 shows the full text. -/
theorem typewriter_prefix_monotone_complete_witness :
    0 < 2 ∧ typewriterDisplay ['H', 'I'] 75 2 100 = ['H', 'I'] :=
  ⟨by decide,
    (typewriter_prefix_monotone_complete ['H', 'I'] 75 2 (by decide)).2.2
      100 (by decide)⟩

/-! ## C6: the cursor blink -/

/-- Counterexample to C6: frame 15 lies in the second half of the 20-frame
cycle (15 mod 20 = 15 ≥ 10), yet the cursor is not hidden there — its
opacity is 1/2, not 0 — so the blink is not a square wave that stays hidden
for the entire second half of the cycle. -/
theorem cursor_not_square_wave_counterexample :
    10 ≤ 15 % 20 ∧ 15 % 20 < 20 ∧ cursorOpacity 15 = 1 / 2 ∧
      cursorOpacity 15 ≠ 0 := by
  refine ⟨by norm_num, by norm_num, ?_, ?_⟩ <;>
    norm_num [cursorOpacity, cursorAux, interpolate, interpolateCore,
      interpAux, strictlyIncr, lerpSeg, Except.toOption]

/-- C6 (amended): the cursor signal in the source is an opacity, not a
boolean, and it is a triangle wave with period 20: over each cycle it falls
linearly from 1 at the cycle start to 0 at the midpoint and rises linearly
back towards 1 over the second half; it is fully hidden (opacity 0) exactly
at the midpoint frame mod 20 = 10, not for the whole second half. -/
theorem cursorOpacity_triangle_wave (f : ℕ) :
    cursorOpacity f =
      (if f % 20 ≤ 10 then 1 - ((f % 20 : ℕ) : ℚ) / 10
        else (((f % 20 : ℕ) : ℚ) - 10) / 10) ∧
    cursorOpacity (f + 20) = cursorOpacity f ∧
    (cursorOpacity f = 0 ↔ f % 20 = 10) := by
  have h20 : f % 20 < 20 := Nat.mod_lt _ (by norm_num)
  obtain ⟨n, hn, he⟩ : ∃ n, n < 20 ∧ f % 20 = n := ⟨f % 20, h20, rfl⟩
  refine ⟨?_, ?_, ?_⟩
  · show cursorAux (f % 20) = _
    rw [he]
    interval_cases n <;>
      norm_num [cursorAux, interpolate, interpolateCore, interpAux,
        strictlyIncr, lerpSeg, Except.toOption]
  · show cursorAux ((f + 20) % 20) = cursorAux (f % 20)
    rw [Nat.add_mod_right]
  · show cursorAux (f % 20) = 0 ↔ f % 20 = 10
    rw [he]
    interval_cases n <;>
      norm_num [cursorAux, interpolate, interpolateCore, interpAux,
        strictlyIncr, lerpSeg, Except.toOption]

/-! ## C7: the audio gain envelope -/

/-- C7: gainAt is exactly the piecewise-linear interpolation through
(0, 0), (fadeInFrames, targetGain), (totalFrames - fadeOutFrames,
targetGain), (totalFrames, 0) with both policies clamp (as the
WorkspaceChallenge volume callback instantiates it), and for every total
length whose fade windows fit, the gain is 0 at frame 0 and 0 again exactly
at the final frame, so the fade-out reaches silence at the last frame for
every value of totalFrames. -/
theorem gainAt_envelope (total fadeIn fadeOut target : ℚ)
    (h1 : 0 < fadeIn) (h2 : fadeIn < total - fadeOut) (h3 : 0 < fadeOut) :
    gainAt 0 total fadeIn fadeOut target = .ok 0 ∧
    gainAt total total fadeIn fadeOut target = .ok 0 ∧
    (∀ f, gainAt f total fadeIn fadeOut target =
      interpolate f [0, fadeIn, total - fadeOut, total]
        [0, target, target, 0] .clamp .clamp) ∧
    (∀ f d, workspaceVolume f d = gainAt f d 30 45 (35 / 100)) := by
  have hlt3 : total - fadeOut < total := by linarith
  have hs : strictlyIncr [0, fadeIn, total - fadeOut, total] = true := by
    simp [strictlyIncr, h1, h2, hlt3]
  have hpre : ([0, fadeIn, total - fadeOut, total] : List ℚ).length =
      ([0, target, target, 0] : List ℚ).length ∧
      2 ≤ ([0, fadeIn, total - fadeOut, total] : List ℚ).length ∧
      strictlyIncr [0, fadeIn, total - fadeOut, total] = true :=
    ⟨rfl, by norm_num, hs⟩
  refine ⟨?_, ?_, fun f => rfl, fun f d => rfl⟩
  · rw [gainAt, interpolate, if_pos hpre]
    show Except.ok (interpolateCore 0
      [(0, 0), (fadeIn, target), (total - fadeOut, target), (total, 0)]
      .clamp .clamp) = Except.ok (0 : ℚ)
    rw [interpolateCore, if_neg (by simp)]
    rw [interpAux, if_pos (le_of_lt h1)]
    norm_num [lerpSeg]
  · rw [gainAt, interpolate, if_pos hpre]
    show Except.ok (interpolateCore total
      [(0, 0), (fadeIn, target), (total - fadeOut, target), (total, 0)]
      .clamp .clamp) = Except.ok (0 : ℚ)
    have h0t : 0 < total := by linarith
    rw [interpolateCore, if_neg (fun hc => absurd hc.1 (by linarith))]
    rw [interpAux, if_neg (by push_neg; linarith)]
    rw [interpAux, if_neg (by push_neg; linarith)]
    rw [interpAux, if_pos le_rfl]
    rw [lerpSeg]
    rw [show total - (total - fadeOut) = fadeOut by ring,
      div_self (ne_of_gt h3)]
    norm_num

/-- Witness for C7 at the source's values: duration 780 frames, 30-frame
fade-in, 45-frame fade-out, target gain 0.35. -/
theorem gainAt_envelope_witness :
    (0 : ℚ) < 30 ∧ gainAt 0 780 30 45 (35 / 100) = .ok 0 ∧
      gainAt 780 780 30 45 (35 / 100) = .ok 0 :=
  ⟨by norm_num,
    (gainAt_envelope 780 30 45 (35 / 100) (by norm_num) (by norm_num)
      (by norm_num)).1,
    (gainAt_envelope 780 30 45 (35 / 100) (by norm_num) (by norm_num)
      (by norm_num)).2.1⟩

/-! ## Timeline helper lemmas -/

theorem bumpLast_length (xs : List ℤ) (d : ℤ) :
    (bumpLast xs d).length = xs.length := by
  induction xs with
  | nil => rfl
  | cons x rest ih =>
    cases rest with
    | nil => rfl
    | cons y t =>
      rw [show bumpLast (x :: y :: t) d = x :: bumpLast (y :: t) d from rfl]
      simpa using ih

theorem bumpLast_getD_of_lt (xs : List ℤ) (d : ℤ) (k : ℕ)
    (h : k + 1 < xs.length) :
    (bumpLast xs d).getD k 0 = xs.getD k 0 := by
  induction xs generalizing k with
  | nil => simp at h
  | cons x rest ih =>
    cases rest with
    | nil => simp at h
    | cons y t =>
      cases k with
      | zero => rfl
      | succ k' =>
        rw [show bumpLast (x :: y :: t) d = x :: bumpLast (y :: t) d from rfl,
          List.getD_cons_succ, List.getD_cons_succ]
        exact ih k' (by simpa using h)

theorem bumpLast_getD_last (xs : List ℤ) (d : ℤ) (h : xs ≠ []) :
    (bumpLast xs d).getD (xs.length - 1) 0 = xs.getD (xs.length - 1) 0 + d := by
  induction xs with
  | nil => cases h rfl
  | cons x rest ih =>
    cases rest with
    | nil => simp [bumpLast]
    | cons y t =>
      have ihh := ih (by simp)
      rw [show bumpLast (x :: y :: t) d = x :: bumpLast (y :: t) d from rfl]
      simp only [List.length_cons, Nat.add_sub_cancel] at ihh ⊢
      rw [List.getD_cons_succ, List.getD_cons_succ]
      exact ihh

theorem bumpLast_sum (xs : List ℤ) (d : ℤ) (h : xs ≠ []) :
    (bumpLast xs d).sum = xs.sum + d := by
  induction xs with
  | nil => cases h rfl
  | cons x rest ih =>
    cases rest with
    | nil => simp [bumpLast]
    | cons y t =>
      rw [show bumpLast (x :: y :: t) d = x :: bumpLast (y :: t) d from rfl,
        List.sum_cons, List.sum_cons, ih (by simp)]
      ring

theorem layout_scenes_map_len (ls : List ℤ) :
    ∀ (s : ℤ) (ts : List ℤ),
      ((layout s ls ts).1).map ResolvedScene.len = ls := by
  induction ls with
  | nil => intro s ts; cases ts <;> rfl
  | cons l rest ih =>
    intro s ts
    cases rest with
    | nil => cases ts <;> rfl
    | cons l' t' =>
      cases ts with
      | nil =>
        rw [show layout s (l :: l' :: t') [] =
          (⟨s, l⟩ :: (layout (s + l) (l' :: t') []).1,
            (layout (s + l) (l' :: t') []).2) from rfl]
        simp [ih]
      | cons tt ts' =>
        rw [show layout s (l :: l' :: t') (tt :: ts') =
          (⟨s, l⟩ :: (layout (s + l - tt) (l' :: t') ts').1,
            ⟨s + l - tt, tt⟩ :: (layout (s + l - tt) (l' :: t') ts').2)
          from rfl]
        simp [ih]

theorem layout_trans_map_dur (ls : List ℤ) :
    ∀ (s : ℤ) (ts : List ℤ), ts.length + 1 = ls.length →
      ((layout s ls ts).2).map ResolvedTransition.duration = ts := by
  induction ls with
  | nil => intro s ts h; simp at h
  | cons l rest ih =>
    intro s ts h
    cases rest with
    | nil =>
      cases ts with
      | nil => rfl
      | cons tt ts' => simp at h
    | cons l' t' =>
      cases ts with
      | nil => simp at h
      | cons tt ts' =>
        rw [show layout s (l :: l' :: t') (tt :: ts') =
          (⟨s, l⟩ :: (layout (s + l - tt) (l' :: t') ts').1,
            ⟨s + l - tt, tt⟩ :: (layout (s + l - tt) (l' :: t') ts').2)
          from rfl]
        simp only [List.map_cons, List.cons.injEq, true_and]
        exact ih (s + l - tt) ts' (by simpa using h)

theorem findWithIdx_eq_none {α : Type} (p : α → Bool) (xs : List α)
    (h : ∀ x ∈ xs, p x = false) : findWithIdx p xs = none := by
  induction xs with
  | nil => rfl
  | cons x t ih =>
    rw [findWithIdx, if_neg (by simp [h x (by simp)]),
      ih (fun y hy => h y (by simp [hy]))]
    rfl

theorem findWithIdx_eq_some_of_unique {α : Type} (p : α → Bool)
    (xs : List α) (d : α) (i : ℕ) (hi : i < xs.length)
    (hp : p (xs.getD i d) = true)
    (hmin : ∀ j, j < i → p (xs.getD j d) = false) :
    findWithIdx p xs = some (i, xs.getD i d) := by
  induction xs generalizing i with
  | nil => simp at hi
  | cons x t ih =>
    cases i with
    | zero =>
      rw [findWithIdx, if_pos (show p x = true from hp)]
      rfl
    | succ i' =>
      have h0 : p x = false := hmin 0 (Nat.succ_pos _)
      rw [findWithIdx, if_neg (by simp [h0]),
        ih i' (by simpa using hi) (by simpa using hp)
          (fun j hj => by simpa using hmin (j + 1) (by omega))]
      rfl

/-- The WorkspaceChallenge source instance agrees with the modelled build:
with the five requested scene lengths, a sixth scene requested at the
code's computed remainder, five 15-frame transitions and 780 total frames,
build accepts the timeline and resolves the last scene to exactly
workspaceScene6 780 15 = 105 frames. -/
theorem workspace_code_instance_consistent :
    workspaceScene6 780 15 = 105 ∧
    build (workspaceRequested ++ [105]) [15, 15, 15, 15, 15] 780 =
      .ok ⟨[⟨0, 120⟩, ⟨105, 150⟩, ⟨240, 150⟩, ⟨375, 180⟩, ⟨540, 150⟩,
          ⟨675, 105⟩],
        [⟨105, 15⟩, ⟨240, 15⟩, ⟨375, 15⟩, ⟨540, 15⟩, ⟨675, 15⟩], 780⟩ := by
  decide

/-! ## C1: the build resolution of scene lengths -/

/-- C1: whenever build accepts a configuration, every scene except the last
keeps its requested length, and the last scene's effective length is its
requested length plus delta, where delta = totalFrames - (sum of requested
lengths - sum of transition durations). -/
theorem build_last_scene_absorbs_delta (scenes trans : List ℤ) (total : ℤ)
    (tl : ResolvedTimeline) (h : build scenes trans total = .ok tl) :
    (∀ k, k + 1 < scenes.length →
      (tl.scenes.getD k ⟨0, 0⟩).len = scenes.getD k 0) ∧
    (tl.scenes.getD (scenes.length - 1) ⟨0, 0⟩).len =
      scenes.getD (scenes.length - 1) 0 +
        (total - (scenes.sum - trans.sum)) := by
  rw [build] at h
  split_ifs at h with hshape hvalid
  injection h with h2
  subst h2
  have hne : scenes ≠ [] := by
    intro hc
    rw [hc] at hshape
    simp at hshape
  have hlen : (bumpLast scenes (total - (scenes.sum - trans.sum))).length =
      scenes.length := bumpLast_length _ _
  have hgetD : ∀ k,
      (((layout 0 (bumpLast scenes (total - (scenes.sum - trans.sum)))
          trans).1).getD k ⟨0, 0⟩).len =
        (bumpLast scenes (total - (scenes.sum - trans.sum))).getD k 0 := by
    intro k
    have := List.getD_map (l := (layout 0
        (bumpLast scenes (total - (scenes.sum - trans.sum))) trans).1)
      (n := k) ResolvedScene.len (d := ⟨0, 0⟩)
    rw [layout_scenes_map_len] at this
    exact this.symm
  constructor
  · intro k hk
    rw [hgetD k, bumpLast_getD_of_lt _ _ _ (by omega)]
  · rw [hgetD _, bumpLast_getD_last _ _ hne]

/-- Witness for C1 at the spec's end-to-end scenario: requested lengths
[120, 150, 150, 180, 150], four 15-frame transitions, 780 total frames;
delta is 90 and the resolved last-scene length is 150 + 90 = 240. -/
theorem build_last_scene_absorbs_delta_witness :
    build [120, 150, 150, 180, 150] [15, 15, 15, 15] 780 =
      .ok ⟨[⟨0, 120⟩, ⟨105, 150⟩, ⟨240, 150⟩, ⟨375, 180⟩, ⟨540, 240⟩],
        [⟨105, 15⟩, ⟨240, 15⟩, ⟨375, 15⟩, ⟨540, 15⟩], 780⟩ ∧
    (780 : ℤ) - (([120, 150, 150, 180, 150] : List ℤ).sum -
      ([15, 15, 15, 15] : List ℤ).sum) = 90 ∧
    ((⟨[⟨0, 120⟩, ⟨105, 150⟩, ⟨240, 150⟩, ⟨375, 180⟩, ⟨540, 240⟩],
        [⟨105, 15⟩, ⟨240, 15⟩, ⟨375, 15⟩, ⟨540, 15⟩], 780⟩ :
      ResolvedTimeline).scenes.getD 4 ⟨0, 0⟩).len =
      ([120, 150, 150, 180, 150] : List ℤ).getD 4 0 +
        (780 - (([120, 150, 150, 180, 150] : List ℤ).sum -
          ([15, 15, 15, 15] : List ℤ).sum)) :=
  ⟨by decide, by decide,
    (build_last_scene_absorbs_delta [120, 150, 150, 180, 150]
      [15, 15, 15, 15] 780
      ⟨[⟨0, 120⟩, ⟨105, 150⟩, ⟨240, 150⟩, ⟨375, 180⟩, ⟨540, 240⟩],
        [⟨105, 15⟩, ⟨240, 15⟩, ⟨375, 15⟩, ⟨540, 15⟩], 780⟩ (by decide)).2⟩

/-! ## C2: the exact-total invariant -/

/-- C2: for every configuration accepted by build, the sum of all scenes'
effective lengths minus the sum of all transition durations equals the
required totalFrames exactly. -/
theorem build_total_invariant (scenes trans : List ℤ) (total : ℤ)
    (tl : ResolvedTimeline) (h : build scenes trans total = .ok tl) :
    (tl.scenes.map ResolvedScene.len).sum -
      (tl.transitions.map ResolvedTransition.duration).sum = total := by
  rw [build] at h
  split_ifs at h with hshape hvalid
  injection h with h2
  subst h2
  have hne : scenes ≠ [] := by
    intro hc
    rw [hc] at hshape
    simp at hshape
  show ((layout 0 (bumpLast scenes (total - (scenes.sum - trans.sum)))
      trans).1.map ResolvedScene.len).sum -
    ((layout 0 (bumpLast scenes (total - (scenes.sum - trans.sum)))
      trans).2.map ResolvedTransition.duration).sum = total
  rw [layout_scenes_map_len,
    layout_trans_map_dur _ _ _ (by rw [bumpLast_length]; omega),
    bumpLast_sum _ _ hne]
  ring

/-- Witness for C2 at the spec's end-to-end scenario: the resolved lengths
[120, 150, 150, 180, 240] minus four 15-frame overlaps give 780 exactly. -/
theorem build_total_invariant_witness :
    ((⟨[⟨0, 120⟩, ⟨105, 150⟩, ⟨240, 150⟩, ⟨375, 180⟩, ⟨540, 240⟩],
        [⟨105, 15⟩, ⟨240, 15⟩, ⟨375, 15⟩, ⟨540, 15⟩], 780⟩ :
      ResolvedTimeline).scenes.map ResolvedScene.len).sum -
      ((⟨[⟨0, 120⟩, ⟨105, 150⟩, ⟨240, 150⟩, ⟨375, 180⟩, ⟨540, 240⟩],
          [⟨105, 15⟩, ⟨240, 15⟩, ⟨375, 15⟩, ⟨540, 15⟩], 780⟩ :
        ResolvedTimeline).transitions.map ResolvedTransition.duration).sum =
      780 :=
  build_total_invariant [120, 150, 150, 180, 150] [15, 15, 15, 15] 780
    ⟨[⟨0, 120⟩, ⟨105, 150⟩, ⟨240, 150⟩, ⟨375, 180⟩, ⟨540, 240⟩],
      [⟨105, 15⟩, ⟨240, 15⟩, ⟨375, 15⟩, ⟨540, 15⟩], 780⟩ (by decide)

/-! ## C9: duration violations abort the build -/

/-- C9: whenever the configuration has a duration violation (some effective
scene length smaller than the transition durations touching it, or an
adjusted last-scene length that is zero or negative), build fails with a
DurationError and returns no resolved timeline at all. -/
theorem build_duration_violation_errors (scenes trans : List ℤ)
    (total : ℤ) (hshape : scenes.length = trans.length + 1)
    (hviol : DurationViolation scenes trans total) :
    build scenes trans total = .error .duration ∧
      ∀ tl, build scenes trans total ≠ .ok tl := by
  have hnv : ¬ DurationsValid scenes trans total := by
    rintro ⟨hall, hlast⟩
    rcases hviol with ⟨i, hi, hlt⟩ | hle
    · exact absurd (hall i hi) (by omega)
    · omega
  refine ⟨?_, ?_⟩
  · rw [build, if_pos hshape, if_neg hnv]
  · intro tl hcontra
    rw [build, if_pos hshape, if_neg hnv] at hcontra
    cases hcontra

/-- Witness for C9: a 5-frame middle scene flanked by two 4-frame
transitions violates the duration rule, and build rejects it. -/
theorem build_duration_violation_errors_witness :
    DurationViolation [10, 5, 10] [4, 4] 17 ∧
      build [10, 5, 10] [4, 4] 17 = .error .duration :=
  ⟨by decide,
    (build_duration_violation_errors [10, 5, 10] [4, 4] 17 (by decide)
      (by decide)).1⟩

/-! ## C4: querying a frame inside exactly one scene -/

/-- C4: for every resolved timeline and global frame that lies inside
exactly one scene's span and outside every transition window, queryFrame
returns exactly that one active scene, with localFrame = globalFrame -
sceneStart. -/
theorem queryFrame_single_scene (tl : ResolvedTimeline) (g : ℤ) (i : ℕ)
    (hi : i < tl.scenes.length)
    (hin : sceneContains (tl.scenes.getD i ⟨0, 0⟩) g)
    (huniq : ∀ j, j < tl.scenes.length →
      sceneContains (tl.scenes.getD j ⟨0, 0⟩) g → j = i)
    (hnt : ∀ t ∈ tl.transitions, ¬ windowContains t g) :
    queryFrame tl g = .single i (g - (tl.scenes.getD i ⟨0, 0⟩).start) := by
  rw [queryFrame,
    findWithIdx_eq_none _ _ (fun t ht => decide_eq_false (hnt t ht)),
    findWithIdx_eq_some_of_unique _ _ ⟨0, 0⟩ i hi (decide_eq_true hin)
      (fun j hj => ?_)]
  by_cases hc : sceneContains (tl.scenes.getD j ⟨0, 0⟩) g
  · exact absurd (huniq j (by omega) hc) (by omega)
  · exact decide_eq_false hc

/-- Witness for C4: in the resolved end-to-end timeline, global frame 50
lies only inside the first scene's span [0, 120) and outside all four
transition windows, and queryFrame returns that scene with local frame
50. -/
theorem queryFrame_single_scene_witness :
    sceneContains ⟨0, 120⟩ 50 ∧
    queryFrame ⟨[⟨0, 120⟩, ⟨105, 150⟩, ⟨240, 150⟩, ⟨375, 180⟩, ⟨540, 240⟩],
        [⟨105, 15⟩, ⟨240, 15⟩, ⟨375, 15⟩, ⟨540, 15⟩], 780⟩ 50 =
      .single 0 (50 -
        ((⟨[⟨0, 120⟩, ⟨105, 150⟩, ⟨240, 150⟩, ⟨375, 180⟩, ⟨540, 240⟩],
            [⟨105, 15⟩, ⟨240, 15⟩, ⟨375, 15⟩, ⟨540, 15⟩], 780⟩ :
          ResolvedTimeline).scenes.getD 0 ⟨0, 0⟩).start) :=
  ⟨by decide,
    queryFrame_single_scene
      ⟨[⟨0, 120⟩, ⟨105, 150⟩, ⟨240, 150⟩, ⟨375, 180⟩, ⟨540, 240⟩],
        [⟨105, 15⟩, ⟨240, 15⟩, ⟨375, 15⟩, ⟨540, 15⟩], 780⟩ 50 0
      (by decide) (by decide) (by decide) (by decide)⟩

end Engine
